import Mathlib

/-
  Verification of the backtest simulation engine of the quant-platform
  repository (src/model_testing/backtesting/engine.py, metrics.py,
  src/infrastructure/utils/config.py, src/models/strategies/base/base_strategy.py).

  Numeric values are embedded as rationals; dates as naturals; Python dicts
  as association lists in insertion order.
-/

namespace QuantPlatform

/-- One OHLCV reading for a symbol on a date (engine.py builds the per-day
market dict with keys open/high/low/close/volume; only close is consumed
by the pipeline under study). -/
structure Bar where
  openPrice : ℚ
  highPrice : ℚ
  lowPrice : ℚ
  closePrice : ℚ
  volume : ℚ
deriving DecidableEq

/-- Modelled from the spec: events.py is absent from src (engine.py imports
MarketEvent from .events). Per spec section 3, a MarketEvent carries a
timestamp and a map symbol to Bar. -/
structure MarketEvent where
  timestamp : ℕ
  data : List (String × Bar)
deriving DecidableEq

/-- Modelled from the spec: section 4.3 says an order whose symbol has no
price available in the bar map yields none; otherwise the close price is
returned (the engine always requests the close field). -/
def MarketEvent.get_price (m : MarketEvent) (symbol : String) : Option ℚ :=
  (m.data.lookup symbol).map Bar.closePrice

/-- Modelled from the spec: the symbols of the day, in market-map order. -/
def MarketEvent.get_symbols (m : MarketEvent) : List String :=
  m.data.map Prod.fst

/-- Order direction (events.py OrderDirection, modelled from the spec:
direction is Buy or Sell). -/
inductive OrderDirection where
  | buy
  | sell
deriving DecidableEq

/-- SignalEvent (modelled from the spec, section 3): the engine stores the
SignalType value as an integer (1 buy, -1 sell, 0 hold). -/
structure SignalEvent where
  timestamp : ℕ
  symbol : String
  signal_type : ℤ
  strength : ℚ
  price : Option ℚ
deriving DecidableEq

/-- OrderEvent (modelled from the spec, section 3); the engine only ever
creates market orders, so the order type field is omitted. -/
structure OrderEvent where
  timestamp : ℕ
  symbol : String
  quantity : ℚ
  direction : OrderDirection
deriving DecidableEq

/-- FillEvent (modelled from the spec, section 3). -/
structure FillEvent where
  timestamp : ℕ
  symbol : String
  quantity : ℚ
  direction : OrderDirection
  fill_price : ℚ
  commission : ℚ
  slippage : ℚ
deriving DecidableEq

/-- The tagged union of the four event kinds. -/
inductive Event where
  | market (e : MarketEvent)
  | signal (e : SignalEvent)
  | order (e : OrderEvent)
  | fill (e : FillEvent)
deriving DecidableEq

/-- One row of Portfolio.history (engine.py lines 49-55). -/
structure Snapshot where
  timestamp : ℕ
  cash : ℚ
  position_value : ℚ
  total_value : ℚ
  positions : List (String × ℚ)
deriving DecidableEq

/-- Portfolio (engine.py lines 19-36): cash, a defaultdict(float) of
positions, the last computed value, and the snapshot history. -/
structure Portfolio where
  initial_capital : ℚ
  commission : ℚ
  cash : ℚ
  positions : List (String × ℚ)
  portfolio_value : ℚ
  history : List Snapshot
deriving DecidableEq

/-- Portfolio.__init__ (engine.py lines 26-36). -/
def Portfolio.init (initial_capital commission : ℚ) : Portfolio :=
  { initial_capital := initial_capital
    commission := commission
    cash := initial_capital
    positions := []
    portfolio_value := initial_capital
    history := [] }

/-- Read access on a defaultdict(float): a missing key is inserted with
value 0.0 (Python defaultdict __getitem__); returns the value and the
possibly grown dict. -/
def dictGetDefault (m : List (String × ℚ)) (k : String) : ℚ × List (String × ℚ) :=
  match m.lookup k with
  | some v => (v, m)
  | none => (0, m ++ [(k, 0)])

/-- Addition into a defaultdict(float) entry (positions[symbol] += q):
updates the entry in place, appending the key when absent. -/
def dictAdd (m : List (String × ℚ)) (k : String) (d : ℚ) : List (String × ℚ) :=
  match m with
  | [] => [(k, d)]
  | (k', v) :: rest => if k' = k then (k', v + d) :: rest else (k', v) :: dictAdd rest k d

/-- Position-value loop of Portfolio.update_market_value (engine.py lines
41-44): a held symbol contributes quantity times price only when the symbol
is present in the prices dict and its quantity is nonzero. -/
def positionValue (positions : List (String × ℚ)) (prices : List (String × ℚ)) : ℚ :=
  positions.foldl
    (fun (acc : ℚ) (sq : String × ℚ) =>
      match prices.lookup sq.1 with
      | some pr => if sq.2 ≠ 0 then acc + sq.2 * pr else acc
      | none => acc)
    (0 : ℚ)

/-- Portfolio.update_market_value (engine.py lines 38-55). -/
def Portfolio.update_market_value (p : Portfolio) (current_prices : List (String × ℚ))
    (timestamp : ℕ) : Portfolio :=
  let pv := positionValue p.positions current_prices
  { p with
    portfolio_value := p.cash + pv
    history := p.history ++
      [{ timestamp := timestamp
         cash := p.cash
         position_value := pv
         total_value := p.cash + pv
         positions := p.positions }] }

/-- Portfolio.execute_fill (engine.py lines 57-68). -/
def Portfolio.execute_fill (p : Portfolio) (fill : FillEvent) : Portfolio :=
  match fill.direction with
  | OrderDirection.buy =>
    { p with
      cash := p.cash - (fill.quantity * fill.fill_price + fill.commission)
      positions := dictAdd p.positions fill.symbol fill.quantity }
  | OrderDirection.sell =>
    { p with
      cash := p.cash + (fill.quantity * fill.fill_price - fill.commission)
      positions := dictAdd p.positions fill.symbol (-fill.quantity) }

/-- Portfolio.can_afford (engine.py lines 73-80). The sell branch reads
self.positions[order.symbol] on a defaultdict, which inserts the key when
absent; the returned Portfolio carries that mutation. -/
def Portfolio.can_afford (p : Portfolio) (order : OrderEvent) (current_price : ℚ) :
    Bool × Portfolio :=
  match order.direction with
  | OrderDirection.buy =>
    (decide (order.quantity * current_price * (1 + p.commission) ≤ p.cash), p)
  | OrderDirection.sell =>
    let vp := dictGetDefault p.positions order.symbol
    (decide (order.quantity ≤ vp.1), { p with positions := vp.2 })

/-- Portfolio.get_position (engine.py lines 82-84): dict.get, no insertion. -/
def Portfolio.get_position (p : Portfolio) (symbol : String) : ℚ :=
  (p.positions.lookup symbol).getD 0

/-- ExecutionHandler (engine.py lines 90-97). -/
structure ExecutionHandler where
  commission : ℚ
  slippage : ℚ
deriving DecidableEq

/-- ExecutionHandler.execute_order (engine.py lines 99-139). The minimum
commission is the hard-coded constant 1.0 of line 125. -/
def ExecutionHandler.execute_order (h : ExecutionHandler) (order : OrderEvent)
    (market_data : MarketEvent) : Option FillEvent :=
  match market_data.get_price order.symbol with
  | none => none
  | some current_price =>
    let fill_price :=
      match order.direction with
      | OrderDirection.buy => current_price * (1 + h.slippage)
      | OrderDirection.sell => current_price * (1 - h.slippage)
    some
      { timestamp := market_data.timestamp
        symbol := order.symbol
        quantity := order.quantity
        direction := order.direction
        fill_price := fill_price
        commission := max (|order.quantity * fill_price| * h.commission) 1
        slippage := h.slippage }

/-- BacktestConfig (config.py lines 10-15), defaults as in the dataclass. -/
structure BacktestConfig where
  initial_capital : ℚ := 100000
  commission : ℚ := 1 / 1000
  slippage : ℚ := 1 / 2000
  min_commission : ℚ := 1
deriving DecidableEq

/-- RiskConfig (config.py lines 17-23), numeric fields only. -/
structure RiskConfig where
  max_position_size : ℚ := 1 / 10
  stop_loss_pct : ℚ := 1 / 50
  max_drawdown : ℚ := 3 / 20
  max_leverage : ℚ := 1
deriving DecidableEq

/-- Config sections consumed by the backtest engine (config.py lines 37-54). -/
structure Config where
  backtest : BacktestConfig := {}
  risk : RiskConfig := {}
deriving DecidableEq

/-- Config.validate (config.py lines 242-272): collects error strings and
returns True exactly when none of the checks failed; it never raises. -/
def Config.validate (c : Config) : Bool :=
  decide (0 < c.backtest.initial_capital) &&
  decide (0 ≤ c.backtest.commission) &&
  decide (0 ≤ c.backtest.slippage) &&
  decide (0 < c.risk.max_position_size ∧ c.risk.max_position_size ≤ 1) &&
  decide (0 ≤ c.risk.stop_loss_pct) &&
  decide (0 < c.risk.max_drawdown ∧ c.risk.max_drawdown ≤ 1)

/-- A strategy Signal (base_strategy.py lines 16-23); the engine consumes
symbol, signal_type (stored as its integer value), strength and price. -/
structure Signal where
  symbol : String
  signal_type : ℤ
  strength : ℚ
  price : Option ℚ
deriving DecidableEq

/-- A strategy Position (base_strategy.py lines 25-33). -/
structure Position where
  symbol : String
  quantity : ℚ
  entry_price : ℚ
  entry_time : ℕ
  current_price : ℚ
  unrealized_pnl : ℚ
deriving DecidableEq

/-- Assignment into a Python dict: update in place, append when absent. -/
def dictSet {α : Type} (m : List (String × α)) (k : String) (v : α) : List (String × α) :=
  match m with
  | [] => [(k, v)]
  | (k', v') :: rest => if k' = k then (k, v) :: rest else (k', v') :: dictSet rest k v

/-- Deletion from a Python dict when the key is present. -/
def dictRemove {α : Type} (m : List (String × α)) (k : String) : List (String × α) :=
  match m with
  | [] => []
  | (k', v') :: rest => if k' = k then rest else (k', v') :: dictRemove rest k

/-- The mutable state a BaseStrategy keeps about its own positions
(base_strategy.py line 47), plus ghost logs recording which callbacks the
engine invoked. -/
structure StrategyState where
  positions : List (String × Position)
  opened_log : List Position
  closed_log : List (Position × ℚ)
deriving DecidableEq

/-- BaseStrategy.on_position_opened (base_strategy.py lines 111-119). -/
def StrategyState.on_position_opened (s : StrategyState) (pos : Position) : StrategyState :=
  { s with
    positions := dictSet s.positions pos.symbol pos
    opened_log := s.opened_log ++ [pos] }

/-- BaseStrategy.on_position_closed (base_strategy.py lines 121-131). -/
def StrategyState.on_position_closed (s : StrategyState) (pos : Position)
    (realized_pnl : ℚ) : StrategyState :=
  { s with
    positions := dictRemove s.positions pos.symbol
    closed_log := s.closed_log ++ [(pos, realized_pnl)] }

/-- A strategy's generate_signals callback: timestamp and the symbol's bar
for the day (the engine passes event.data[symbol] named by the symbol). -/
def Strat : Type := ℕ → String → Bar → List Signal

/-- Engine state: the event queue, the portfolio, the strategy's tracked
state, plus ghost logs of generate_signals invocations, applied fills and
injected MarketEvents. -/
structure EngineState where
  queue : List Event
  pf : Portfolio
  strat_state : StrategyState
  inv_log : List (ℕ × String × Bar)
  fills_log : List FillEvent
  market_injections : List ℕ
deriving DecidableEq

/-- The per-symbol generate_signals invocations a MarketEvent causes
(engine.py lines 284-288). -/
def invocationsOf (m : MarketEvent) : List (ℕ × String × Bar) :=
  m.data.map (fun sb => (m.timestamp, sb.1, sb.2))

/-- The SignalEvents enqueued while handling a MarketEvent (engine.py lines
290-300), in per-symbol order. -/
def signalEventsOf (strat : Strat) (m : MarketEvent) : List Event :=
  m.data.flatMap (fun sb =>
    (strat m.timestamp sb.1 sb.2).map (fun sg =>
      Event.signal
        { timestamp := m.timestamp
          symbol := sg.symbol
          signal_type := sg.signal_type
          strength := sg.strength
          price := sg.price }))

/-- BacktestEngine._handle_market_event (engine.py lines 281-300). The
source loop interleaves, per symbol, one generate_signals invocation and the
enqueueing of that symbol's SignalEvents; the net effect on each field is
the concatenation below. -/
def handle_market_event (strat : Strat) (m : MarketEvent) (s : EngineState) : EngineState :=
  { s with
    queue := s.queue ++ signalEventsOf strat m
    inv_log := s.inv_log ++ invocationsOf m }

/-- Python expression "event.price or 100.0" (engine.py line 309): None and
0.0 are both falsy and fall back to 100.0. -/
def priceOrDefault : Option ℚ → ℚ
  | none => 100
  | some p => if p = 0 then 100 else p

/-- Signal-to-order conversion of BacktestEngine._handle_signal_event
(engine.py lines 302-341), as a function of the configuration, the current
portfolio and the signal. -/
def routeSignal (cfg : Config) (p : Portfolio) (e : SignalEvent) : Option OrderEvent :=
  let target_value := p.portfolio_value * cfg.risk.max_position_size
  let current_price := priceOrDefault e.price
  let target_quantity := target_value / current_price
  let current_position := p.get_position e.symbol
  if e.signal_type = 1 then
    if current_position ≤ 0 then
      some { timestamp := e.timestamp, symbol := e.symbol
             quantity := target_quantity, direction := OrderDirection.buy }
    else none
  else if e.signal_type = -1 then
    if 0 ≤ current_position then
      some { timestamp := e.timestamp, symbol := e.symbol
             quantity := if current_position = 0 then target_quantity else current_position
             direction := OrderDirection.sell }
    else none
  else none

/-- BacktestEngine._handle_signal_event (engine.py lines 302-341): route the
signal and enqueue the resulting order, if any. -/
def handle_signal_event (cfg : Config) (e : SignalEvent) (s : EngineState) : EngineState :=
  match routeSignal cfg s.pf e with
  | none => s
  | some o => { s with queue := s.queue ++ [Event.order o] }

/-- The queue scan of BacktestEngine._handle_order_event (engine.py lines
346-362): pop events into temp until a MarketEvent is found (temp includes
it), then put every popped event back at the tail; returns the found
MarketEvent and the resulting queue. -/
def scanForMarket : List Event → List Event → Option MarketEvent × List Event
  | [], temp => (none, temp)
  | e :: rest, temp =>
    match e with
    | Event.market m => (some m, rest ++ temp ++ [e])
    | _ => scanForMarket rest (temp ++ [e])

/-- BacktestEngine._handle_order_event (engine.py lines 343-377): find the
most recent MarketEvent in the queue; drop the order when there is none or
the symbol has no price or the portfolio cannot afford it; otherwise
enqueue the executed fill. -/
def handle_order_event (h : ExecutionHandler) (e : OrderEvent) (s : EngineState) : EngineState :=
  let scanned := scanForMarket s.queue []
  let s1 := { s with queue := scanned.2 }
  match scanned.1 with
  | none => s1
  | some mkt =>
    match mkt.get_price e.symbol with
    | none => s1
    | some price =>
      let afford := s1.pf.can_afford e price
      let s2 := { s1 with pf := afford.2 }
      if afford.1 then
        match h.execute_order e mkt with
        | some fill => { s2 with queue := s2.queue ++ [Event.fill fill] }
        | none => s2
      else s2

/-- BacktestEngine._handle_fill_event (engine.py lines 379-396): apply the
fill to the portfolio; a Buy fill additionally notifies the strategy through
on_position_opened; the Sell branch is a pass. -/
def handle_fill_event (event : FillEvent) (p : Portfolio) (s : StrategyState) :
    Portfolio × StrategyState :=
  match event.direction with
  | OrderDirection.buy =>
    (p.execute_fill event,
     s.on_position_opened
       { symbol := event.symbol
         quantity := event.quantity
         entry_price := event.fill_price
         entry_time := event.timestamp
         current_price := event.fill_price
         unrealized_pnl := 0 })
  | OrderDirection.sell => (p.execute_fill event, s)

/-- Event dispatch of BacktestEngine._process_events (engine.py lines 272-279). -/
def dispatch (cfg : Config) (h : ExecutionHandler) (strat : Strat) (e : Event)
    (s : EngineState) : EngineState :=
  match e with
  | Event.market m => handle_market_event strat m s
  | Event.signal sg => handle_signal_event cfg sg s
  | Event.order o => handle_order_event h o s
  | Event.fill f =>
    let ps := handle_fill_event f s.pf s.strat_state
    { s with pf := ps.1, strat_state := ps.2, fills_log := s.fills_log ++ [f] }

/-- BacktestEngine._process_events (engine.py lines 264-279): pop and
dispatch until the queue is empty. The while loop is modelled with explicit
fuel; runDay supplies fuel that provably drains the queue. -/
def processEvents (cfg : Config) (h : ExecutionHandler) (strat : Strat) :
    ℕ → EngineState → EngineState
  | 0, s => s
  | fuel + 1, s =>
    match s.queue with
    | [] => s
    | e :: rest => processEvents cfg h strat fuel (dispatch cfg h strat e { s with queue := rest })

/-- Weight of an event for the termination measure of the day loop. -/
def eventWeight : Event → ℕ
  | Event.signal _ => 2
  | _ => 1

/-- Termination measure of the queue. -/
def queueMeasure (q : List Event) : ℕ :=
  (q.map eventWeight).sum

/-- Fuel sufficient for one day: the MarketEvent dispatch plus the measure
of every SignalEvent it creates. -/
def dayFuel (strat : Strat) (m : MarketEvent) : ℕ :=
  1 + queueMeasure (signalEventsOf strat m)

/-- Portfolio-value refresh closing a day of the main loop (engine.py lines
252-254): update_market_value from the day's close prices. -/
def snapAfter (s : EngineState) (day : ℕ × List (String × Bar)) : EngineState :=
  { s with
    pf := s.pf.update_market_value (day.2.map (fun sb => (sb.1, sb.2.closePrice))) day.1 }

/-- One iteration of the main backtest loop (engine.py lines 231-254):
inject the day's MarketEvent, process events until the queue is empty, then
update the portfolio market value from the day's close prices. -/
def runDay (cfg : Config) (h : ExecutionHandler) (strat : Strat) (s : EngineState)
    (day : ℕ × List (String × Bar)) : EngineState :=
  snapAfter
    (processEvents cfg h strat
      (queueMeasure s.queue + dayFuel strat { timestamp := day.1, data := day.2 })
      { s with
        queue := s.queue ++ [Event.market { timestamp := day.1, data := day.2 }]
        market_injections := s.market_injections ++ [day.1] })
    day

/-- Engine construction (engine.py lines 149-172): fresh portfolio and
execution handler from the configuration, empty queue. -/
def initState (cfg : Config) : EngineState :=
  { queue := []
    pf := Portfolio.init cfg.backtest.initial_capital cfg.backtest.commission
    strat_state := { positions := [], opened_log := [], closed_log := [] }
    inv_log := []
    fills_log := []
    market_injections := [] }

/-- ExecutionHandler construction (engine.py lines 158-161). -/
def execHandler (cfg : Config) : ExecutionHandler :=
  { commission := cfg.backtest.commission, slippage := cfg.backtest.slippage }

/-- BacktestEngine.run (engine.py lines 199-262), over pre-loaded daily bar
data in ascending date order (data loading and result assembly excluded). -/
def run (cfg : Config) (strat : Strat) (days : List (ℕ × List (String × Bar))) : EngineState :=
  days.foldl (runDay cfg (execHandler cfg) strat) (initState cfg)

/-- Result type for metrics whose zero-denominator branch returns numpy
positive infinity. -/
inductive MetricValue where
  | finite (q : ℚ)
  | posInf
deriving DecidableEq

/-- PerformanceMetrics.calmar_ratio (metrics.py lines 143-151) as a function
of the values of the two sub-metrics it reads (annualized_return and
max_drawdown); the function is total, the zero-drawdown case is the explicit
first branch. -/
def calmar (annual_ret max_dd : ℚ) : MetricValue :=
  if max_dd = 0 then
    if 0 < annual_ret then MetricValue.posInf else MetricValue.finite 0
  else MetricValue.finite (annual_ret / max_dd)

/-- Modelled from the spec: section 4.3 commission formula, with the
configured minimum commission rather than a fixed constant. -/
def commissionSpec (commission_rate minimum_commission quantity fill_price : ℚ) : ℚ :=
  max (|quantity * fill_price| * commission_rate) minimum_commission

/-- The quantity the signal router targets (engine.py lines 304-310). -/
def targetQty (cfg : Config) (p : Portfolio) (e : SignalEvent) : ℚ :=
  p.portfolio_value * cfg.risk.max_position_size / priceOrDefault e.price

/-- Concrete bar with close price 100. -/
def barA : Bar :=
  { openPrice := 100, highPrice := 100, lowPrice := 100, closePrice := 100, volume := 1000 }

/-- Concrete one-symbol trading day. -/
def day0 : ℕ × List (String × Bar) := (0, [("A", barA)])

/-- Concrete MarketEvent for day0. -/
def mktA : MarketEvent := { timestamp := 0, data := [("A", barA)] }

/-- Concrete configuration: capital 100000, commission rate 1 percent, zero
slippage, max position fraction one tenth. -/
def cfgTest : Config :=
  { backtest := { initial_capital := 100000, commission := 1 / 100, slippage := 0, min_commission := 1 }
    risk := { max_position_size := 1 / 10, stop_loss_pct := 1 / 50, max_drawdown := 3 / 20, max_leverage := 1 } }

/-- Concrete configuration with a configured minimum commission of 5. -/
def cfgMin5 : Config :=
  { backtest := { initial_capital := 100000, commission := 1 / 1000, slippage := 0, min_commission := 5 }
    risk := {} }

/-- Concrete configuration with a negative commission rate (invalid per the
validation rules). -/
def cfgNegCommission : Config :=
  { backtest := { initial_capital := 100000, commission := -1, slippage := 0, min_commission := 1 }
    risk := {} }

/-- Concrete configuration violating every validated inequality the claims
mention: negative commission, negative slippage, max position size above 1. -/
def cfgAllBad : Config :=
  { backtest := { initial_capital := 100000, commission := -1, slippage := -1, min_commission := 1 }
    risk := { max_position_size := 2, stop_loss_pct := 1 / 50, max_drawdown := 3 / 20, max_leverage := 1 } }

/-- Fresh portfolio with capital 100000 and commission rate 1 percent. -/
def pInit : Portfolio := Portfolio.init 100000 (1 / 100)

/-- Fresh portfolio with an empty ledger and default commission rate. -/
def pEmpty : Portfolio := Portfolio.init 100000 (1 / 1000)

/-- Portfolio holding 10 shares of A with cash 100. -/
def pHold : Portfolio :=
  { initial_capital := 100, commission := 1 / 1000, cash := 100
    positions := [("A", 10)], portfolio_value := 100, history := [] }

/-- Portfolio whose only entry is a flat (zero-quantity) position. -/
def pFlat : Portfolio :=
  { initial_capital := 100, commission := 0, cash := 100
    positions := [("B", 0)], portfolio_value := 100, history := [] }

/-- Portfolio short 5 shares of A. -/
def pShortA : Portfolio :=
  { initial_capital := 100000, commission := 1 / 100, cash := 100000
    positions := [("A", -5)], portfolio_value := 100000, history := [] }

/-- Strategy emitting one full-strength Buy signal per symbol per day. -/
def stratBuy : Strat := fun _ sym _ =>
  [{ symbol := sym, signal_type := 1, strength := 1, price := some 100 }]

/-- Strategy emitting no signals. -/
def stratQuiet : Strat := fun _ _ _ => []

/-- Concrete Buy SignalEvent for symbol A at price 100. -/
def sigEvtA : SignalEvent :=
  { timestamp := 0, symbol := "A", signal_type := 1, strength := 1, price := some 100 }

/-- Concrete Sell SignalEvent for symbol A at price 100. -/
def sigSellA : SignalEvent :=
  { timestamp := 0, symbol := "A", signal_type := -1, strength := 1, price := some 100 }

/-- The order the router produces from sigEvtA on a fresh pInit portfolio. -/
def orderA : OrderEvent :=
  { timestamp := 0, symbol := "A", quantity := 100, direction := OrderDirection.buy }

/-- Buy order of 10 shares of A. -/
def orderBuy10 : OrderEvent :=
  { timestamp := 0, symbol := "A", quantity := 10, direction := OrderDirection.buy }

/-- Buy order of 1 share of A. -/
def orderBuy1 : OrderEvent :=
  { timestamp := 0, symbol := "A", quantity := 1, direction := OrderDirection.buy }

/-- Sell order of 1 share of A. -/
def sellOrderA : OrderEvent :=
  { timestamp := 0, symbol := "A", quantity := 1, direction := OrderDirection.sell }

/-- ExecutionHandler with commission rate 1 percent and zero slippage. -/
def handlerC2 : ExecutionHandler := { commission := 1 / 100, slippage := 0 }

/-- The fill Scenario A expects for orderBuy10 against barA. -/
def fillBuy10 : FillEvent :=
  { timestamp := 0, symbol := "A", quantity := 10, direction := OrderDirection.buy
    fill_price := 100, commission := 10, slippage := 0 }

/-- Concrete Sell fill. -/
def fillSellA : FillEvent :=
  { timestamp := 0, symbol := "A", quantity := 3, direction := OrderDirection.sell
    fill_price := 50, commission := 1, slippage := 0 }

/-- A tracked strategy position in symbol A. -/
def posA : Position :=
  { symbol := "A", quantity := 3, entry_price := 40, entry_time := 0
    current_price := 40, unrealized_pnl := 0 }

/-- Strategy state tracking one open position in A. -/
def stratStateA : StrategyState :=
  { positions := [("A", posA)], opened_log := [], closed_log := [] }

/-- Net effect of one day on the portfolio: the single update_market_value
call of engine.py lines 252-254. -/
def dayUpdate (p : Portfolio) (day : ℕ × List (String × Bar)) : Portfolio :=
  p.update_market_value (day.2.map (fun sb => (sb.1, sb.2.closePrice))) day.1

/-- Events the strategy or router derive within a day: signals and orders. -/
def isDerivedEvt : Event → Bool
  | Event.signal _ => true
  | Event.order _ => true
  | _ => false

theorem eventWeight_pos (e : Event) : 1 ≤ eventWeight e := by
  cases e <;> simp [eventWeight]

theorem queueMeasure_cons (e : Event) (q : List Event) :
    queueMeasure (e :: q) = eventWeight e + queueMeasure q := by
  simp [queueMeasure]

theorem queueMeasure_append (q r : List Event) :
    queueMeasure (q ++ r) = queueMeasure q + queueMeasure r := by
  simp [queueMeasure]

theorem engineState_eta (s : EngineState) (h : s.queue = []) :
    ({ s with queue := [] } : EngineState) = s := by
  cases s
  simp only at h
  subst h
  rfl

theorem scanForMarket_no_market :
    ∀ (q temp : List Event), (∀ e ∈ q, isDerivedEvt e = true) →
      scanForMarket q temp = (none, temp ++ q) := by
  intro q
  induction q with
  | nil => intro temp _; simp [scanForMarket]
  | cons e rest ih =>
    intro temp h
    have he := h e (by simp)
    have hrest : ∀ x ∈ rest, isDerivedEvt x = true := fun x hx => h x (by simp [hx])
    cases e with
    | market m => simp [isDerivedEvt] at he
    | fill f => simp [isDerivedEvt] at he
    | signal sg =>
      rw [show scanForMarket (Event.signal sg :: rest) temp
            = scanForMarket rest (temp ++ [Event.signal sg]) from rfl]
      rw [ih _ hrest]
      simp
    | order o =>
      rw [show scanForMarket (Event.order o :: rest) temp
            = scanForMarket rest (temp ++ [Event.order o]) from rfl]
      rw [ih _ hrest]
      simp

theorem handle_order_event_no_market (h : ExecutionHandler) (o : OrderEvent)
    (s : EngineState) (hq : ∀ e ∈ s.queue, isDerivedEvt e = true) :
    handle_order_event h o s = s := by
  unfold handle_order_event
  rw [scanForMarket_no_market s.queue [] hq]
  rfl

theorem processEvents_drain (cfg : Config) (h : ExecutionHandler) (strat : Strat) :
    ∀ (fuel : ℕ) (s : EngineState),
      (∀ e ∈ s.queue, isDerivedEvt e = true) →
      queueMeasure s.queue ≤ fuel →
      processEvents cfg h strat fuel s = { s with queue := [] } := by
  intro fuel
  induction fuel with
  | zero =>
    rintro ⟨q, spf, sss, sil, sfl, smi⟩ hP hm
    cases q with
    | nil => rfl
    | cons e rest =>
      exfalso
      have hm' : eventWeight e + queueMeasure rest ≤ 0 := by
        rw [← queueMeasure_cons]
        exact hm
      have := eventWeight_pos e
      omega
  | succ n ih =>
    rintro ⟨q, spf, sss, sil, sfl, smi⟩ hP hm
    cases q with
    | nil => rfl
    | cons e rest =>
      have hm' : eventWeight e + queueMeasure rest ≤ n + 1 := by
        rw [← queueMeasure_cons]
        exact hm
      have hPrest : ∀ x ∈ rest, isDerivedEvt x = true := fun x hx => hP x (by simp [hx])
      have he : isDerivedEvt e = true := hP e (by simp)
      cases e with
      | market m => simp [isDerivedEvt] at he
      | fill f => simp [isDerivedEvt] at he
      | order o =>
        show processEvents cfg h strat n
            (handle_order_event h o ⟨rest, spf, sss, sil, sfl, smi⟩)
          = ⟨[], spf, sss, sil, sfl, smi⟩
        rw [handle_order_event_no_market h o _ hPrest]
        have hw : eventWeight (Event.order o) = 1 := rfl
        have hq' : queueMeasure rest ≤ n := by omega
        exact ih ⟨rest, spf, sss, sil, sfl, smi⟩ hPrest hq'
      | signal sg =>
        show processEvents cfg h strat n
            (handle_signal_event cfg sg ⟨rest, spf, sss, sil, sfl, smi⟩)
          = ⟨[], spf, sss, sil, sfl, smi⟩
        have hw : eventWeight (Event.signal sg) = 2 := rfl
        cases hr : routeSignal cfg spf sg with
        | none =>
          rw [show handle_signal_event cfg sg ⟨rest, spf, sss, sil, sfl, smi⟩
                = ⟨rest, spf, sss, sil, sfl, smi⟩ from by
            unfold handle_signal_event
            rw [show (⟨rest, spf, sss, sil, sfl, smi⟩ : EngineState).pf = spf from rfl, hr]]
          have hq' : queueMeasure rest ≤ n := by omega
          exact ih ⟨rest, spf, sss, sil, sfl, smi⟩ hPrest hq'
        | some o =>
          rw [show handle_signal_event cfg sg ⟨rest, spf, sss, sil, sfl, smi⟩
                = ⟨rest ++ [Event.order o], spf, sss, sil, sfl, smi⟩ from by
            unfold handle_signal_event
            rw [show (⟨rest, spf, sss, sil, sfl, smi⟩ : EngineState).pf = spf from rfl, hr]]
          have hP2 : ∀ x ∈ rest ++ [Event.order o], isDerivedEvt x = true := by
            intro x hx
            rcases List.mem_append.mp hx with hx | hx
            · exact hPrest x hx
            · simp at hx
              subst hx
              rfl
          have hm2 : queueMeasure (rest ++ [Event.order o]) ≤ n := by
            rw [queueMeasure_append]
            have h1 : queueMeasure [Event.order o] = 1 := rfl
            omega
          exact ih ⟨rest ++ [Event.order o], spf, sss, sil, sfl, smi⟩ hP2 hm2

theorem signalEventsOf_derived (strat : Strat) (m : MarketEvent) :
    ∀ e ∈ signalEventsOf strat m, isDerivedEvt e = true := by
  intro e he
  simp only [signalEventsOf, List.mem_flatMap, List.mem_map] at he
  obtain ⟨sb, _, sg, _, rfl⟩ := he
  rfl

theorem runDay_spec (cfg : Config) (h : ExecutionHandler) (strat : Strat)
    (s : EngineState) (d : ℕ × List (String × Bar)) (hs : s.queue = []) :
    runDay cfg h strat s d =
      { s with
        queue := []
        inv_log := s.inv_log ++ invocationsOf { timestamp := d.1, data := d.2 }
        market_injections := s.market_injections ++ [d.1]
        pf := dayUpdate s.pf d } := by
  obtain ⟨q, spf, sss, sil, sfl, smi⟩ := s
  simp only at hs
  subst hs
  unfold runDay
  rw [show queueMeasure ([] : List Event)
        + dayFuel strat { timestamp := d.1, data := d.2 }
      = queueMeasure (signalEventsOf strat { timestamp := d.1, data := d.2 }) + 1 from by
    have h0 : queueMeasure ([] : List Event) = 0 := rfl
    unfold dayFuel
    omega]
  show snapAfter
      (processEvents cfg h strat
        (queueMeasure (signalEventsOf strat { timestamp := d.1, data := d.2 }))
        ⟨signalEventsOf strat { timestamp := d.1, data := d.2 }, spf, sss,
          sil ++ invocationsOf { timestamp := d.1, data := d.2 }, sfl, smi ++ [d.1]⟩)
      d = _
  rw [processEvents_drain cfg h strat
      (queueMeasure (signalEventsOf strat { timestamp := d.1, data := d.2 }))
      ⟨signalEventsOf strat { timestamp := d.1, data := d.2 }, spf, sss,
        sil ++ invocationsOf { timestamp := d.1, data := d.2 }, sfl, smi ++ [d.1]⟩
      (signalEventsOf_derived strat { timestamp := d.1, data := d.2 })
      (le_refl _)]
  rfl

theorem run_foldl_spec (cfg : Config) (h : ExecutionHandler) (strat : Strat) :
    ∀ (days : List (ℕ × List (String × Bar))) (s : EngineState), s.queue = [] →
      days.foldl (runDay cfg h strat) s =
        { s with
          queue := []
          inv_log := s.inv_log ++
            days.flatMap (fun d => invocationsOf { timestamp := d.1, data := d.2 })
          market_injections := s.market_injections ++ days.map Prod.fst
          pf := days.foldl dayUpdate s.pf } := by
  intro days
  induction days with
  | nil =>
    intro s hs
    simp only [List.foldl_nil, List.flatMap_nil, List.map_nil, List.append_nil]
    exact (engineState_eta s hs).symm
  | cons d ds ih =>
    intro s hs
    simp only [List.foldl_cons]
    rw [runDay_spec cfg h strat s d hs]
    rw [ih _ rfl]
    simp [List.append_assoc]

/-- Whole-run characterization: over any configuration, strategy and day
sequence, the engine ends with an empty queue, invokes generate_signals
exactly on each day's own bars, injects one MarketEvent per day, applies no
fill, leaves the strategy state untouched, and the portfolio is exactly the
fold of the daily update_market_value calls over the fresh portfolio. -/
theorem run_spec (cfg : Config) (strat : Strat) (days : List (ℕ × List (String × Bar))) :
    run cfg strat days =
      { queue := []
        pf := days.foldl dayUpdate
          (Portfolio.init cfg.backtest.initial_capital cfg.backtest.commission)
        strat_state := { positions := [], opened_log := [], closed_log := [] }
        inv_log := days.flatMap (fun d => invocationsOf { timestamp := d.1, data := d.2 })
        fills_log := []
        market_injections := days.map Prod.fst } := by
  unfold run
  rw [run_foldl_spec cfg (execHandler cfg) strat days (initState cfg) rfl]
  rfl

theorem foldl_dayUpdate_cash :
    ∀ (days : List (ℕ × List (String × Bar))) (p : Portfolio),
      (days.foldl dayUpdate p).cash = p.cash := by
  intro days
  induction days with
  | nil => intro p; rfl
  | cons d ds ih =>
    intro p
    rw [List.foldl_cons, ih]
    rfl

theorem foldl_dayUpdate_positions :
    ∀ (days : List (ℕ × List (String × Bar))) (p : Portfolio),
      (days.foldl dayUpdate p).positions = p.positions := by
  intro days
  induction days with
  | nil => intro p; rfl
  | cons d ds ih =>
    intro p
    rw [List.foldl_cons, ih]
    rfl

theorem foldl_dayUpdate_history_length :
    ∀ (days : List (ℕ × List (String × Bar))) (p : Portfolio),
      (days.foldl dayUpdate p).history.length = p.history.length + days.length := by
  intro days
  induction days with
  | nil => intro p; simp
  | cons d ds ih =>
    intro p
    rw [List.foldl_cons, ih]
    simp [dayUpdate, Portfolio.update_market_value]
    omega

theorem positionValue_eq_sum (positions prices : List (String × ℚ)) :
    positionValue positions prices =
      (positions.map (fun sq =>
        match prices.lookup sq.1 with
        | some pr => if sq.2 ≠ 0 then sq.2 * pr else 0
        | none => 0)).sum := by
  have haux : ∀ (l : List (String × ℚ)) (acc : ℚ),
      l.foldl
        (fun (acc : ℚ) (sq : String × ℚ) =>
          match prices.lookup sq.1 with
          | some pr => if sq.2 ≠ 0 then acc + sq.2 * pr else acc
          | none => acc)
        acc
      = acc + (l.map (fun sq =>
          match prices.lookup sq.1 with
          | some pr => if sq.2 ≠ 0 then sq.2 * pr else 0
          | none => 0)).sum := by
    intro l
    induction l with
    | nil => intro acc; simp
    | cons sq rest ih =>
      intro acc
      rw [List.foldl_cons, List.map_cons, List.sum_cons]
      cases hl : prices.lookup sq.1 with
      | none =>
        simp only [hl]
        rw [ih]
        ring
      | some pr =>
        simp only [hl]
        by_cases hz : sq.2 = 0
        · rw [if_neg (not_not_intro hz), if_neg (not_not_intro hz), ih]
          ring
        · rw [if_pos hz, if_pos hz, ih]
          ring
  unfold positionValue
  rw [haux]
  ring

theorem lookup_append_single {α : Type} :
    ∀ (l : List (String × α)) (k sym : String) (v : α),
      (l ++ [(k, v)]).lookup sym =
        match l.lookup sym with
        | some w => some w
        | none => if sym = k then some v else none := by
  intro l k sym v
  induction l with
  | nil =>
    show List.lookup sym [(k, v)] = if sym = k then some v else none
    by_cases h : sym = k
    · simp [List.lookup, h]
    · have hb : (sym == k) = false := beq_eq_false_iff_ne.mpr h
      simp [List.lookup, hb, h]
  | cons a rest ih =>
    obtain ⟨k', v'⟩ := a
    by_cases h : sym = k'
    · simp [List.lookup, h]
    · have hb : (sym == k') = false := beq_eq_false_iff_ne.mpr h
      simp only [List.cons_append, List.lookup, hb]
      exact ih

/-- Claim C2: with commission rate 0.01, minimum commission 1 and zero
slippage, a buy of 10 shares against a bar closing at 100 fills at price 100
with commission max(10*100*0.01, 1) = 10, and applying that fill to a fresh
portfolio with cash 100000 leaves cash 100000 - (1000 + 10) = 98990 and
position quantity 10 for the symbol. -/
theorem c2_scenario_a :
    handlerC2.execute_order orderBuy10 mktA = some fillBuy10
    ∧ (pInit.execute_fill fillBuy10).cash = 98990
    ∧ (pInit.execute_fill fillBuy10).positions = [("A", 10)] := by
  refine ⟨?_, ?_, ?_⟩
  · unfold ExecutionHandler.execute_order MarketEvent.get_price handlerC2 orderBuy10 mktA
    norm_num [List.lookup, barA, fillBuy10]
  · unfold Portfolio.execute_fill pInit Portfolio.init fillBuy10
    norm_num
  · unfold Portfolio.execute_fill pInit Portfolio.init fillBuy10 dictAdd
    norm_num

/-- Claim C9: calmar_ratio equals annualized_return / max_drawdown when
max_drawdown is nonzero; when max_drawdown is 0 it is positive infinity if
annualized_return is positive and 0 otherwise; the zero-drawdown case is an
explicit branch of the total function calmar. -/
theorem c9_calmar_branches (annual_ret max_dd : ℚ) :
    (max_dd ≠ 0 → calmar annual_ret max_dd = MetricValue.finite (annual_ret / max_dd))
    ∧ (max_dd = 0 → 0 < annual_ret → calmar annual_ret max_dd = MetricValue.posInf)
    ∧ (max_dd = 0 → ¬ 0 < annual_ret → calmar annual_ret max_dd = MetricValue.finite 0) := by
  refine ⟨fun h => ?_, fun h h2 => ?_, fun h h2 => ?_⟩
  · simp [calmar, h]
  · simp [calmar, h, h2]
  · simp [calmar, h, h2]

/-- Witness for C9 at drawdown 4 and at drawdown 0 with positive and
nonpositive annualized return. -/
theorem c9_witness :
    calmar 2 4 = MetricValue.finite (2 / 4)
    ∧ calmar 2 0 = MetricValue.posInf
    ∧ calmar (-3) 0 = MetricValue.finite 0 :=
  ⟨(c9_calmar_branches 2 4).1 (by norm_num),
   (c9_calmar_branches 2 0).2.1 rfl (by norm_num),
   (c9_calmar_branches (-3) 0).2.2 rfl (by norm_num)⟩

/-- Claim C10: handling a Sell fill applies the fill to the portfolio ledger
and leaves the strategy state (tracked positions and both callback logs)
unchanged, invoking no callback; only a Buy fill triggers a strategy
callback, namely on_position_opened. -/
theorem c10_fill_callbacks (f : FillEvent) (p : Portfolio) (s : StrategyState) :
    (f.direction = OrderDirection.sell →
      handle_fill_event f p s = (p.execute_fill f, s))
    ∧ (f.direction = OrderDirection.buy →
      handle_fill_event f p s =
        (p.execute_fill f,
         s.on_position_opened
           { symbol := f.symbol, quantity := f.quantity, entry_price := f.fill_price
             entry_time := f.timestamp, current_price := f.fill_price, unrealized_pnl := 0 })) := by
  constructor <;> intro h <;> simp [handle_fill_event, h]

/-- Witness for C10 at a concrete Sell fill and a concrete Buy fill. -/
theorem c10_witness :
    handle_fill_event fillSellA pEmpty stratStateA = (pEmpty.execute_fill fillSellA, stratStateA)
    ∧ handle_fill_event fillBuy10 pEmpty stratStateA =
        (pEmpty.execute_fill fillBuy10,
         stratStateA.on_position_opened
           { symbol := "A", quantity := 10, entry_price := 100
             entry_time := 0, current_price := 100, unrealized_pnl := 0 }) :=
  ⟨(c10_fill_callbacks fillSellA pEmpty stratStateA).1 rfl,
   (c10_fill_callbacks fillBuy10 pEmpty stratStateA).2 rfl⟩

/-- Claim C8: over any run, generate_signals is invoked exactly once per
symbol per day with that day's own bar and timestamp (so never with data of
a later day), exactly one MarketEvent is injected per day, and the queue is
fully drained at the end of every run prefix. -/
theorem c8_no_lookahead (cfg : Config) (strat : Strat)
    (days : List (ℕ × List (String × Bar))) :
    (run cfg strat days).inv_log
        = days.flatMap (fun d => d.2.map (fun sb => (d.1, sb.1, sb.2)))
    ∧ (run cfg strat days).market_injections = days.map Prod.fst
    ∧ (run cfg strat days).queue = [] := by
  rw [run_spec]
  exact ⟨rfl, rfl, rfl⟩

/-- Counterexample to C3 as stated: after day 1 establishes a last known
price of 5 for the held symbol A (snapshot total 150), day 2's price map
omits A; the recorded total_value is the cash 100, not cash plus
quantity times last known price (150), and the difference 50 exceeds the
tolerance 1e-6. -/
theorem c3_counterexample :
    ((pHold.update_market_value [("A", 5)] 1).update_market_value [] 2).history.map
        Snapshot.total_value = [150, 100]
    ∧ ¬(|(100 : ℚ) - (100 + 10 * 5)| ≤ 1 / 1000000) := by
  constructor
  · unfold pHold Portfolio.update_market_value
    norm_num [positionValue, List.lookup]
  · norm_num

/-- Claim C3 (amended): every update_market_value call appends exactly one
snapshot whose total_value equals cash plus the sum, over held symbols whose
price is present in that day's price map and whose quantity is nonzero, of
quantity times that day's price — a held symbol absent from the day's map
contributes zero, not its last known price — and total_value equals cash
exactly (hence within tolerance 1e-6) when all positions are flat. -/
theorem c3_snapshot_amended (p : Portfolio) (prices : List (String × ℚ)) (ts : ℕ) :
    (p.update_market_value prices ts).history =
      p.history ++
        [{ timestamp := ts
           cash := p.cash
           position_value := (p.positions.map (fun sq =>
             match prices.lookup sq.1 with
             | some pr => if sq.2 ≠ 0 then sq.2 * pr else 0
             | none => 0)).sum
           total_value := p.cash + (p.positions.map (fun sq =>
             match prices.lookup sq.1 with
             | some pr => if sq.2 ≠ 0 then sq.2 * pr else 0
             | none => 0)).sum
           positions := p.positions }]
    ∧ ((∀ sq ∈ p.positions, sq.2 = 0) →
        (p.update_market_value prices ts).portfolio_value = p.cash) := by
  constructor
  · unfold Portfolio.update_market_value
    rw [positionValue_eq_sum]
  · intro hflat
    have hz : positionValue p.positions prices = 0 := by
      rw [positionValue_eq_sum]
      apply List.sum_eq_zero
      intro x hx
      rw [List.mem_map] at hx
      obtain ⟨sq, hsq, rfl⟩ := hx
      have h0 := hflat sq hsq
      cases prices.lookup sq.1 with
      | none => rfl
      | some pr =>
        show (if sq.2 ≠ 0 then sq.2 * pr else 0) = 0
        rw [if_neg (not_not_intro h0)]
    show p.cash + positionValue p.positions prices = p.cash
    rw [hz, add_zero]

/-- Witness for C3 (amended) at a portfolio whose only entry is flat. -/
theorem c3_witness :
    (pFlat.update_market_value [("B", 7)] 3).portfolio_value = pFlat.cash :=
  (c3_snapshot_amended pFlat [("B", 7)] 3).2 (by
    intro sq hsq
    simp only [pFlat] at hsq
    simp at hsq
    simp [hsq])

/-- Counterexample to C4 as stated: a Buy signal arriving while the position
is -5 yields a buy order of target_quantity 100000 * (1/10) / 100 = 100, not
of the absolute position 5; applying it would move the position from -5 to
95, flipping past flat in one step. -/
theorem c4_counterexample :
    (routeSignal cfgTest pShortA sigEvtA).map OrderEvent.quantity = some 100
    ∧ pShortA.get_position "A" = -5
    ∧ ((100 : ℚ) ≠ |(-5 : ℚ)|)
    ∧ (0 : ℚ) < -5 + 100 := by
  refine ⟨?_, ?_, by norm_num, by norm_num⟩
  · unfold routeSignal cfgTest pShortA sigEvtA priceOrDefault Portfolio.get_position
    norm_num [List.lookup]
  · unfold pShortA Portfolio.get_position
    norm_num [List.lookup]

/-- Claim C4 (amended): a Sell signal at a flat position emits a sell order
of target_quantity (opening a short), as claimed; but a Buy signal at a
strictly negative position emits a buy order of target_quantity
(portfolio_value * max_position_size / signal price), not of the absolute
current position, so a single Buy signal can flip a short past flat. -/
theorem c4_router_amended (cfg : Config) (p : Portfolio) (e : SignalEvent) :
    (e.signal_type = -1 → p.get_position e.symbol = 0 →
      routeSignal cfg p e = some { timestamp := e.timestamp, symbol := e.symbol
                                   quantity := targetQty cfg p e
                                   direction := OrderDirection.sell })
    ∧ (e.signal_type = 1 → p.get_position e.symbol < 0 →
      routeSignal cfg p e = some { timestamp := e.timestamp, symbol := e.symbol
                                   quantity := targetQty cfg p e
                                   direction := OrderDirection.buy }) := by
  constructor
  · intro h1 h2
    unfold routeSignal targetQty
    rw [h1, h2]
    norm_num
  · intro h1 h2
    unfold routeSignal targetQty
    rw [h1]
    norm_num [h2.le]

/-- Witness for C4 (amended): a Sell signal on a flat ledger and a Buy
signal on a short ledger. -/
theorem c4_witness :
    routeSignal cfgTest pEmpty sigSellA =
      some { timestamp := 0, symbol := "A"
             quantity := targetQty cfgTest pEmpty sigSellA
             direction := OrderDirection.sell }
    ∧ routeSignal cfgTest pShortA sigEvtA =
        some { timestamp := 0, symbol := "A"
               quantity := targetQty cfgTest pShortA sigEvtA
               direction := OrderDirection.buy } :=
  ⟨(c4_router_amended cfgTest pEmpty sigSellA).1 rfl (by
      unfold pEmpty Portfolio.init Portfolio.get_position
      simp [List.lookup]),
   (c4_router_amended cfgTest pShortA sigEvtA).2 rfl (by
      unfold pShortA Portfolio.get_position sigEvtA
      norm_num [List.lookup])⟩

/-- Counterexample to C5 as stated: querying can_afford for a Sell of a
symbol absent from the ledger inserts that symbol with quantity 0 into the
positions map (defaultdict __getitem__), so the set of keys differs before
and after the call. -/
theorem c5_counterexample :
    pEmpty.positions = []
    ∧ (pEmpty.can_afford sellOrderA 100).2.positions = [("A", 0)]
    ∧ ([("A", (0 : ℚ))] : List (String × ℚ)) ≠ [] := by
  refine ⟨rfl, ?_, by simp⟩
  unfold Portfolio.can_afford pEmpty Portfolio.init sellOrderA dictGetDefault
  simp [List.lookup]

/-- Claim C5 (amended): can_afford returns true for a Buy exactly when
cash covers quantity * price * (1 + commission_rate) and then mutates
nothing; for a Sell it returns true exactly when the ledger quantity
(0 for an absent symbol) covers the order quantity, leaves cash and every
ledger quantity unchanged, but inserts the queried symbol with quantity 0
when it was absent, growing the key set. -/
theorem c5_can_afford_amended (p : Portfolio) (o : OrderEvent) (price : ℚ) :
    (o.direction = OrderDirection.buy →
      ((p.can_afford o price).1 = true ↔ o.quantity * price * (1 + p.commission) ≤ p.cash)
      ∧ (p.can_afford o price).2 = p)
    ∧ (o.direction = OrderDirection.sell →
      ((p.can_afford o price).1 = true ↔ o.quantity ≤ (p.positions.lookup o.symbol).getD 0)
      ∧ (p.can_afford o price).2.cash = p.cash
      ∧ (p.can_afford o price).2.positions =
          (match p.positions.lookup o.symbol with
           | some _ => p.positions
           | none => p.positions ++ [(o.symbol, 0)])
      ∧ (∀ sym : String,
          ((p.can_afford o price).2.positions.lookup sym).getD 0
            = (p.positions.lookup sym).getD 0)) := by
  constructor
  · intro hd
    unfold Portfolio.can_afford
    rw [hd]
    exact ⟨decide_eq_true_iff, rfl⟩
  · intro hd
    unfold Portfolio.can_afford dictGetDefault
    rw [hd]
    cases hl : p.positions.lookup o.symbol with
    | some v =>
      refine ⟨?_, rfl, rfl, fun sym => rfl⟩
      show decide (o.quantity ≤ v) = true ↔ o.quantity ≤ v
      exact decide_eq_true_iff
    | none =>
      refine ⟨?_, rfl, rfl, ?_⟩
      · show decide (o.quantity ≤ (0 : ℚ)) = true ↔ o.quantity ≤ (0 : ℚ)
        exact decide_eq_true_iff
      · intro sym
        show ((p.positions ++ [(o.symbol, 0)]).lookup sym).getD 0
          = (p.positions.lookup sym).getD 0
        rw [lookup_append_single]
        cases hs : p.positions.lookup sym with
        | some w => rfl
        | none =>
          by_cases he : sym = o.symbol
          · simp [he]
          · simp [he]

/-- Witness for C5 (amended): a Buy query on a fresh portfolio and a Sell
query for an absent symbol. -/
theorem c5_witness :
    ((pInit.can_afford orderBuy10 100).1 = true
      ↔ orderBuy10.quantity * 100 * (1 + pInit.commission) ≤ pInit.cash)
    ∧ (pInit.can_afford orderBuy10 100).2 = pInit
    ∧ ((pEmpty.can_afford sellOrderA 100).1 = true
      ↔ sellOrderA.quantity ≤ ((pEmpty.positions.lookup sellOrderA.symbol).getD 0))
    ∧ (pEmpty.can_afford sellOrderA 100).2.cash = pEmpty.cash :=
  ⟨((c5_can_afford_amended pInit orderBuy10 100).1 rfl).1,
   ((c5_can_afford_amended pInit orderBuy10 100).1 rfl).2,
   ((c5_can_afford_amended pEmpty sellOrderA 100).2 rfl).1,
   ((c5_can_afford_amended pEmpty sellOrderA 100).2 rfl).2.1⟩

/-- Counterexample to C7 as stated: with a negative commission rate the
configuration is invalid (validate returns false), yet the run does not
abort: it records an equity snapshot for the day. -/
theorem c7_counterexample :
    Config.validate cfgNegCommission = false
    ∧ (run cfgNegCommission stratQuiet [day0]).pf.history.length = 1 := by
  constructor
  · unfold Config.validate cfgNegCommission
    norm_num
  · rw [run_spec]
    show (List.foldl dayUpdate
      (Portfolio.init cfgNegCommission.backtest.initial_capital
        cfgNegCommission.backtest.commission) [day0]).history.length = 1
    rw [foldl_dayUpdate_history_length]
    rfl

/-- Claim C7 (amended): an invalid configuration (negative commission or
slippage, or max position size outside the interval (0, 1]) makes
Config.validate return false, but validate does not raise and
BacktestEngine.run never invokes it: the run proceeds regardless of
validity and records exactly one equity snapshot per day. -/
theorem c7_validation_not_enforced (cfg : Config) (strat : Strat)
    (days : List (ℕ × List (String × Bar))) :
    (cfg.backtest.commission < 0 → cfg.validate = false)
    ∧ (cfg.backtest.slippage < 0 → cfg.validate = false)
    ∧ (¬(0 < cfg.risk.max_position_size ∧ cfg.risk.max_position_size ≤ 1) →
        cfg.validate = false)
    ∧ (run cfg strat days).pf.history.length = days.length := by
  refine ⟨?_, ?_, ?_, ?_⟩
  · intro h
    unfold Config.validate
    rw [decide_eq_false (not_le.mpr h)]
    simp
  · intro h
    unfold Config.validate
    rw [decide_eq_false (not_le.mpr h)]
    simp
  · intro h
    unfold Config.validate
    rw [decide_eq_false h]
    simp
  · rw [run_spec]
    show (List.foldl dayUpdate
      (Portfolio.init cfg.backtest.initial_capital cfg.backtest.commission)
      days).history.length = days.length
    rw [foldl_dayUpdate_history_length]
    rw [show (Portfolio.init cfg.backtest.initial_capital
      cfg.backtest.commission).history.length = 0 from rfl]
    exact Nat.zero_add _

/-- Witness for C7 (amended) at a configuration violating all three checks. -/
theorem c7_witness :
    Config.validate cfgAllBad = false
    ∧ (run cfgAllBad stratQuiet [day0]).pf.history.length = 1 :=
  ⟨(c7_validation_not_enforced cfgAllBad stratQuiet [day0]).1 (by norm_num [cfgAllBad]),
   (c7_validation_not_enforced cfgAllBad stratQuiet [day0]).2.2.2⟩

/-- Claim C1 (code bug): on a day whose MarketEvent carries the bar for A,
the router emits an order (of 100 affordable shares) and the executor would
fill it at the close, yet the run applies no fill at all: the order handler
searches the queue for a MarketEvent after the day's MarketEvent was already
dequeued, finds none, and drops every order, so cash, positions and the
equity snapshot are unchanged by trading. -/
theorem c1_engine_never_fills :
    routeSignal cfgTest pInit sigEvtA = some orderA
    ∧ (pInit.can_afford orderA 100).1 = true
    ∧ (execHandler cfgTest).execute_order orderA mktA =
        some { timestamp := 0, symbol := "A", quantity := 100
               direction := OrderDirection.buy, fill_price := 100
               commission := 100, slippage := 0 }
    ∧ (run cfgTest stratBuy [day0]).fills_log = []
    ∧ (run cfgTest stratBuy [day0]).pf.cash = 100000
    ∧ (run cfgTest stratBuy [day0]).pf.positions = []
    ∧ (run cfgTest stratBuy [day0]).pf.history.map Snapshot.total_value = [100000] := by
  refine ⟨?_, ?_, ?_, ?_, ?_, ?_, ?_⟩
  · unfold routeSignal cfgTest pInit Portfolio.init sigEvtA priceOrDefault
      Portfolio.get_position orderA
    norm_num [List.lookup]
  · unfold Portfolio.can_afford pInit Portfolio.init orderA
    norm_num
  · unfold ExecutionHandler.execute_order execHandler cfgTest MarketEvent.get_price mktA orderA
    norm_num [List.lookup, barA]
  · rw [run_spec]
  · rw [run_spec]
    show (List.foldl dayUpdate
      (Portfolio.init cfgTest.backtest.initial_capital cfgTest.backtest.commission)
      [day0]).cash = 100000
    rw [foldl_dayUpdate_cash]
    rfl
  · rw [run_spec]
    show (List.foldl dayUpdate
      (Portfolio.init cfgTest.backtest.initial_capital cfgTest.backtest.commission)
      [day0]).positions = []
    rw [foldl_dayUpdate_positions]
    rfl
  · rw [run_spec]
    show (List.foldl dayUpdate
      (Portfolio.init cfgTest.backtest.initial_capital cfgTest.backtest.commission)
      [day0]).history.map Snapshot.total_value = [100000]
    unfold day0 dayUpdate Portfolio.update_market_value Portfolio.init cfgTest
    norm_num [positionValue]

/-- Claim C6 (code bug): the code computes commission as
max(notional * rate, 1.0) with the hard-coded constant 1.0 of engine.py line
125; with configured minimum commission 5, rate 0.001, zero slippage and a
buy of 1 share at close 100, the code yields commission 1 while the
spec formula with the configured minimum yields 5. -/
theorem c6_min_commission_ignored :
    cfgMin5.backtest.min_commission = 5
    ∧ ((execHandler cfgMin5).execute_order orderBuy1 mktA).map FillEvent.commission = some 1
    ∧ commissionSpec cfgMin5.backtest.commission cfgMin5.backtest.min_commission 1 100 = 5
    ∧ ((1 : ℚ) ≠ 5) := by
  refine ⟨rfl, ?_, ?_, by norm_num⟩
  · unfold ExecutionHandler.execute_order execHandler cfgMin5 MarketEvent.get_price mktA orderBuy1
    norm_num [List.lookup, barA]
  · unfold commissionSpec cfgMin5
    norm_num

end QuantPlatform
